import Mathlib

/-!
Verification development for the `codeEditor` repository.

The repository is a Tk-based SSH/SFTP client consisting of three Python
modules:

* `main.py` — a background worker process (`ssh_worker`) serving a small
  request/response command protocol (`connect`, `listdir`, `read_file`,
  `write_file`, `send_command`), plus the UI controller wiring;
* `terminal.py` — `SSHTerminal`, whose `write_ansi` method decodes a raw
  text chunk (stripping/interpreting ANSI escape sequences) and inserts the
  literal remainder into a Tk text buffer, and whose `map_tag` method maps an
  SGR parameter list to a rendering tag;
* `editor.py` — `CodeEditor`, a Tk text widget wrapper with `get_text` and
  `set_text` entry points.

This file shallowly embeds the parts of those modules that the verified
properties concern.  External collaborators (paramiko's SFTP file store, the
remote shell, the Tk text widget) are modelled at their interface boundary:
the SFTP store is a path ↦ contents association list (paramiko encodes a
`str` to UTF-8 on write and `read().decode("utf-8", errors="ignore")` is the
identity on round-tripped UTF-8 text, so file contents are modelled as the
decoded strings); a directory listing and the shell output are uninterpreted
functions carried in the worker state; the Tk text widget is a string plus
the automatic trailing newline the widget always keeps.

Python regular-expression substitutions in `write_ansi` are embedded as
character-list scanners.  Scanners whose recursion consumes a
variable-length prefix are written with an explicit `Nat` fuel argument (the
wrapper passes the input length, which always suffices because every step
consumes at least one character); this keeps every definition structurally
recursive, hence directly evaluable by `decide` in concrete instances.

The `write_ansi` embedding computes the sequence of `text.insert` calls the
method performs on a chunk (each with its tag).  The retraction side
(`deleteCharacter`, `clearLine`) only removes previously rendered buffer
characters and never contributes to or depends on the inserted text of the
current chunk (`current_tag` is a local variable of `write_ansi`), so the
insertion sequence is a function of the chunk alone.
-/

/-! ## Worker model (`main.py`, `ssh_worker`) -/

/-- One entry of an SFTP directory listing (`sftp.listdir_attr` item):
its filename and whether `stat.S_ISDIR(item.st_mode)` holds. -/
structure DirEntry where
  filename : String
  isDir : Bool
deriving DecidableEq

/-- A command message received by `ssh_worker` (`msg["cmd"]` plus its
arguments).  `other` stands for any unrecognized `cmd` string, which the
worker silently ignores (no branch matches, no response is sent). -/
inductive Msg where
  | connect
  | listdir (path : String)
  | read_file (path : String)
  | write_file (path : String) (data : String)
  | send_command (data : String)
  | other (cmd : String)
deriving DecidableEq

/-- A response sent back by `ssh_worker` over the connection:
`status` models `{"status": "connected"}`, `listing` the icon/name pair
list, `content` the decoded file text, `ack` the literal `"ok"` string,
`output` the drained shell output, and `err` the `{"error": str(e)}`
dictionary produced by the `except` clause. -/
inductive Resp where
  | status (s : String)
  | listing (items : List (String × String))
  | content (text : String)
  | ack
  | output (text : String)
  | err (msg : String)
deriving DecidableEq

/-- The worker-owned remote handles.  `connected` records whether the
`connect` command has run (before that, `sftp`/`shell` are `None` and every
use raises `AttributeError`).  `files` models the SFTP file store reachable
through `sftp.open` (path ↦ decoded contents).  `dirListing` models
`sftp.listdir_attr` and `shellOut` models the shell send/drain exchange;
both are external to the repository and enter the model as uninterpreted
functions fixed for the session (the "no concurrent external mutation"
assumption). -/
structure WorkerState where
  connected : Bool
  files : List (String × String)
  dirListing : String → Except String (List DirEntry)
  shellOut : String → String

/-- Reading a path from the SFTP store (`sftp.open(path, "r")` followed by
`read().decode("utf-8", errors="ignore")`); a missing path raises, which is
modelled as an `Except.error`. -/
def fsRead : List (String × String) → String → Except String String
  | [], _ => .error "IOError: No such file"
  | (q, v) :: rest, p => if q = p then .ok v else fsRead rest p

/-- Writing a path in the SFTP store (`sftp.open(path, "w")` followed by
`f.write(data)`): replaces the contents if the path exists, creates it
otherwise. -/
def fsWrite : List (String × String) → String → String → List (String × String)
  | [], p, d => [(p, d)]
  | (q, v) :: rest, p, d => if q = p then (p, d) :: rest else (q, v) :: fsWrite rest p d

/-- The paths for which `ssh_worker` suppresses the parent-navigation
entry: the tuple `(".", "/", "")` tested on line 60 of `main.py`. -/
def rootPaths : List String := [".", "/", ""]

/-- The icon/name pair built for one listing item: `"📁"` for a directory,
`"📄"` for a file. -/
def entryIcon (e : DirEntry) : String × String :=
  (if e.isDir then "📁" else "📄", e.filename)

/-- The list sent back by the `listdir` branch: a `("📁", "..")` entry is
prepended exactly when `path not in (".", "/", "")`, then one icon/name
pair per listing item, in listing order. -/
def listdirItems (path : String) (entries : List DirEntry) : List (String × String) :=
  (if path ∈ rootPaths then [] else [("📁", "..")]) ++ entries.map entryIcon

/-- One command execution inside the `try` block of `ssh_worker`.
`Except.error e` models a raised exception with message `str(e) = e`;
`Option Resp` is the response passed to `conn.send` (`none` when no branch
matches the command and nothing is sent).  Before `connect` has run the
remote handles are `None`, so every remote operation raises
`AttributeError`. -/
def execCmd (m : Msg) (s : WorkerState) : Except String (Option Resp × WorkerState) :=
  match m with
  | .connect => .ok (some (.status "connected"), { s with connected := true })
  | .listdir path =>
    if s.connected then
      match s.dirListing path with
      | .ok entries => .ok (some (.listing (listdirItems path entries)), s)
      | .error e => .error e
    else .error "AttributeError: NoneType object has no attribute listdir_attr"
  | .read_file path =>
    if s.connected then
      match fsRead s.files path with
      | .ok text => .ok (some (.content text), s)
      | .error e => .error e
    else .error "AttributeError: NoneType object has no attribute open"
  | .write_file path data =>
    if s.connected then
      .ok (some .ack, { s with files := fsWrite s.files path data })
    else .error "AttributeError: NoneType object has no attribute open"
  | .send_command data =>
    if s.connected then .ok (some (.output (s.shellOut data)), s)
    else .error "AttributeError: NoneType object has no attribute send"
  | .other _ => .ok (none, s)

/-- One iteration of the worker's `while True` loop body: run the command;
if it raises, the `except` clause sends `{"error": str(e)}` instead, and
the loop continues with the handles unchanged. -/
def workerStep (m : Msg) (s : WorkerState) : Option Resp × WorkerState :=
  match execCmd m s with
  | .ok r => r
  | .error e => (some (.err e), s)

/-- The worker's `while True` loop over a sequence of accepted
connections: one `workerStep` per received message, threading the handle
state. -/
def workerRun : List Msg → WorkerState → List (Option Resp) × WorkerState
  | [], s => ([], s)
  | m :: ms, s =>
    let p := workerStep m s
    let q := workerRun ms p.2
    (p.1 :: q.1, q.2)

/-- A concrete connected worker state used by witnesses: one stored file
`"f" ↦ "x"`, every directory listing a single plain file `a.txt`. -/
def sampleConnected : WorkerState :=
  { connected := true
    files := [("f", "x")]
    dirListing := fun _ => .ok [⟨"a.txt", false⟩]
    shellOut := fun _ => "" }

/-- A concrete worker state in which `connect` has not run yet. -/
def sampleIdle : WorkerState :=
  { connected := false
    files := []
    dirListing := fun _ => .ok []
    shellOut := fun _ => "" }

/-! ## Editor model (`editor.py`, `CodeEditor`) -/

/-- Model of the Tk `Text` widget backing `CodeEditor.file_editor`:
`content` is the user-visible text excluding the automatic trailing
newline that a Tk text widget always keeps after its last character. -/
structure TextWidget where
  content : String
deriving DecidableEq

/-- `CodeEditor.set_text`: `delete("1.0", END)` (which leaves only the
automatic trailing newline) followed by `insert("1.0", text)`. -/
def CodeEditor.set_text (_w : TextWidget) (t : String) : TextWidget :=
  { content := t }

/-- `CodeEditor.get_text`: `get("1.0", END)`, which returns the buffer
contents including the automatic trailing newline. -/
def CodeEditor.get_text (w : TextWidget) : String :=
  w.content ++ "\n"

/-! ## Terminal model (`terminal.py`, `SSHTerminal.write_ansi` and `map_tag`)

Each `re.sub` of `write_ansi` becomes one scanner over the character list,
applied in the exact source order.  A scanner emits unmatched characters
unchanged and, at each position where its pattern matches, consumes the
match (replacing it by the sentinel `n1n` in the OSC case, by nothing
otherwise), exactly like `re.sub`'s leftmost non-overlapping semantics. -/

/-- Python's `\s` class over the ASCII range: the whitespace characters
recognized by the `\S+` token alternative of the literal-run tokenizer. -/
def pySpace (c : Char) : Bool :=
  c = ' ' || c = '\t' || c = '\n' || c = '\r' || c = '\x0b' || c = '\x0c'

/-- Lazy scan for the OSC terminator of `\x1b\].*?(\x07|\x1b\\)`: the match
ends at the first BEL or `ESC \`; `.` does not cross a newline, so reaching
`'\n'` (or the end of input) means the pattern fails at this start. -/
def oscEnd : List Char → Option (List Char)
  | [] => none
  | '\x07' :: rest => some rest
  | '\x1b' :: '\\' :: rest => some rest
  | '\n' :: _ => none
  | _ :: rest => oscEnd rest

/-- After `ESC [`, consume `[0-9;]*` then one of `H`, `f`, `J`, `K`
(the pattern `\x1b\[[0-9;]*[HfJK]`), returning the remainder. -/
def csiFinHfJK : List Char → Option (List Char)
  | [] => none
  | c :: rest =>
    if c.isDigit ∨ c = ';' then csiFinHfJK rest
    else if c = 'H' ∨ c = 'f' ∨ c = 'J' ∨ c = 'K' then some rest
    else none

/-- After `ESC [`, consume `\d*` then a final byte in `A`–`H` or `J`
(the pattern `\x1b\[\d*[A-HJ]`), returning the remainder. -/
def cursorFin : List Char → Option (List Char)
  | [] => none
  | c :: rest =>
    if c.isDigit then cursorFin rest
    else if ('A' ≤ c ∧ c ≤ 'H') ∨ c = 'J' then some rest
    else none

/-- Consume a maximal (possibly empty) run of decimal digits. -/
def skipDigits : List Char → List Char
  | [] => []
  | c :: rest => if c.isDigit then skipDigits rest else c :: rest

/-- After `ESC [`, consume `\d+;\d+` then `H` or `f`
(the pattern `\x1b\[\d+;\d+[Hf]`), returning the remainder. -/
def rowColFin : List Char → Option (List Char)
  | [] => none
  | c :: rest =>
    if c.isDigit then
      match skipDigits rest with
      | ';' :: r2 =>
        match r2 with
        | d :: r3 =>
          if d.isDigit then
            match skipDigits r3 with
            | f :: r4 => if f = 'H' ∨ f = 'f' then some r4 else none
            | [] => none
          else none
        | [] => none
      | _ => none
    else none

/-- After `ESC [`, consume `[0-9;]*` then `m` (the split pattern
`\x1b\[([0-9;]*)m`), returning the captured parameter list and the
remainder. -/
def sgrFin : List Char → Option (List Char × List Char)
  | [] => none
  | c :: rest =>
    if c.isDigit ∨ c = ';' then
      match sgrFin rest with
      | some (ps, rem) => some (c :: ps, rem)
      | none => none
    else if c = 'm' then some ([], rest)
    else none

/-- Split at the first occurrence of the closing quote `q` (the regex
alternative `q[^q]*q` succeeds iff a closing quote occurs anywhere later,
newlines included), returning the enclosed characters and the remainder. -/
def findClose (q : Char) : List Char → Option (List Char × List Char)
  | [] => none
  | c :: rest =>
    if c = q then some ([], rest)
    else
      match findClose q rest with
      | some (a, b) => some (c :: a, b)
      | none => none

/-- Span of a maximal `\S+` run: the leading non-whitespace characters and
the remainder. -/
def takeTok : List Char → List Char × List Char
  | [] => ([], [])
  | c :: rest =>
    if pySpace c then ([], c :: rest)
    else (c :: (takeTok rest).1, (takeTok rest).2)

/-- Prepend a character to the first group of a split result (used to grow
the current literal segment of `re.split`). -/
def consCur (c : Char) : List (List Char) → List (List Char)
  | [] => [[c]]
  | g :: gs => (c :: g) :: gs

/-- Python's `code.split(';')`: always at least one (possibly empty)
group. -/
def splitSemi : List Char → List (List Char)
  | [] => [[]]
  | c :: rest =>
    if c = ';' then [] :: splitSemi rest
    else consCur c (splitSemi rest)

/-- `re.sub(r'\x08', '', text)`: drop every backspace byte. -/
def subBS : List Char → List Char
  | [] => []
  | c :: rest => if c = '\x08' then subBS rest else c :: subBS rest

/-- `re.sub(r'\x07', '', text)`: drop every bell byte. -/
def subBel : List Char → List Char
  | [] => []
  | c :: rest => if c = '\x07' then subBel rest else c :: subBel rest

/-- `re.sub(r'\x1b\[\?2004[hl]', '', text)`: drop bracketed-paste
toggles. -/
def subBracketed : List Char → List Char
  | '\x1b' :: '[' :: '?' :: '2' :: '0' :: '0' :: '4' :: 'h' :: rest => subBracketed rest
  | '\x1b' :: '[' :: '?' :: '2' :: '0' :: '0' :: '4' :: 'l' :: rest => subBracketed rest
  | c :: rest => c :: subBracketed rest
  | [] => []

/-- `re.sub(r'\x1b\[6n', '', text)`: drop cursor-position queries. -/
def sub6n : List Char → List Char
  | '\x1b' :: '[' :: '6' :: 'n' :: rest => sub6n rest
  | c :: rest => c :: sub6n rest
  | [] => []

/-- `re.sub(r'\x1b\[0?m', '', text)`: drop `ESC [ m` and `ESC [ 0 m`
("redundant reset") — note this runs BEFORE the SGR split, so a plain
reset sequence never reaches `map_tag`. -/
def subReset : List Char → List Char
  | '\x1b' :: '[' :: 'm' :: rest => subReset rest
  | '\x1b' :: '[' :: '0' :: 'm' :: rest => subReset rest
  | c :: rest => c :: subReset rest
  | [] => []

/-- `re.sub(r'\x1b\[1Pm', '', text)`: drop the cursor-edit sequence. -/
def sub1Pm : List Char → List Char
  | '\x1b' :: '[' :: '1' :: 'P' :: 'm' :: rest => sub1Pm rest
  | c :: rest => c :: sub1Pm rest
  | [] => []

/-- `re.sub(r'n1n', '\n', item)`: rewrite every (leftmost, non-overlapping)
occurrence of the OSC sentinel `n1n` to a newline. -/
def subN1N : List Char → List Char
  | 'n' :: '1' :: 'n' :: rest => '\n' :: subN1N rest
  | c :: rest => c :: subN1N rest
  | [] => []

/-- Fueled scanner for `re.sub(r'\x1b\].*?(\x07|\x1b\\)', 'n1n', text)`:
each matched OSC sequence is replaced by the sentinel `n1n`.  Each step
consumes at least one input character, so fuel = input length (what the
wrapper passes) never runs out. -/
def subOSCF : Nat → List Char → List Char
  | 0, s => s
  | _ + 1, [] => []
  | fuel + 1, c :: rest =>
    if c = '\x1b' then
      match rest with
      | ']' :: r2 =>
        match oscEnd r2 with
        | some rem => 'n' :: '1' :: 'n' :: subOSCF fuel rem
        | none => c :: subOSCF fuel rest
      | _ => c :: subOSCF fuel rest
    else c :: subOSCF fuel rest

/-- Fueled scanner for `re.sub(r'\x1b\[[0-9;]*[HfJK]', '', text)`. -/
def subCSIHfJKF : Nat → List Char → List Char
  | 0, s => s
  | _ + 1, [] => []
  | fuel + 1, c :: rest =>
    if c = '\x1b' then
      match rest with
      | '[' :: r2 =>
        match csiFinHfJK r2 with
        | some rem => subCSIHfJKF fuel rem
        | none => c :: subCSIHfJKF fuel rest
      | _ => c :: subCSIHfJKF fuel rest
    else c :: subCSIHfJKF fuel rest

/-- Fueled scanner for `re.sub(r'\x1b\[\d*[A-HJ]', '', text)`. -/
def subCursorMoveF : Nat → List Char → List Char
  | 0, s => s
  | _ + 1, [] => []
  | fuel + 1, c :: rest =>
    if c = '\x1b' then
      match rest with
      | '[' :: r2 =>
        match cursorFin r2 with
        | some rem => subCursorMoveF fuel rem
        | none => c :: subCursorMoveF fuel rest
      | _ => c :: subCursorMoveF fuel rest
    else c :: subCursorMoveF fuel rest

/-- Fueled scanner for `re.sub(r'\x1b\[\d+;\d+[Hf]', '', text)`. -/
def subRowColF : Nat → List Char → List Char
  | 0, s => s
  | _ + 1, [] => []
  | fuel + 1, c :: rest =>
    if c = '\x1b' then
      match rest with
      | '[' :: r2 =>
        match rowColFin r2 with
        | some rem => subRowColF fuel rem
        | none => c :: subRowColF fuel rest
      | _ => c :: subRowColF fuel rest
    else c :: subRowColF fuel rest

/-- Fueled scanner for `re.split` with the capture-group pattern
`\x1b\[([0-9;]*)m`: the result interleaves literal segments and captured
parameter lists (`[literal, params, literal, params, ..., literal]`),
exactly `ansi_escape.split(text)` in the source. -/
def sgrSplitF : Nat → List Char → List (List Char)
  | 0, s => [s]
  | _ + 1, [] => [[]]
  | fuel + 1, c :: rest =>
    if c = '\x1b' then
      match rest with
      | '[' :: r2 =>
        match sgrFin r2 with
        | some (ps, rem) => [] :: ps :: sgrSplitF fuel rem
        | none => consCur c (sgrSplitF fuel rest)
      | _ => consCur c (sgrSplitF fuel rest)
    else consCur c (sgrSplitF fuel rest)

/-- Fueled scanner for
`re.findall(r'\"[^\"]*\"|\'[^\']*\'|\S+', chunk)`: a double- or
single-quoted segment (closing quote found anywhere later) is one token,
otherwise a maximal non-whitespace run is one token, and whitespace between
tokens is skipped. -/
def tokenizeF : Nat → List Char → List (List Char)
  | 0, _ => []
  | _ + 1, [] => []
  | fuel + 1, c :: rest =>
    if pySpace c then tokenizeF fuel rest
    else if c = '"' then
      match findClose '"' rest with
      | some (inner, rem) => ('"' :: inner ++ ['"']) :: tokenizeF fuel rem
      | none => (c :: (takeTok rest).1) :: tokenizeF fuel (takeTok rest).2
    else if c = '\'' then
      match findClose '\'' rest with
      | some (inner, rem) => ('\'' :: inner ++ ['\'']) :: tokenizeF fuel rem
      | none => (c :: (takeTok rest).1) :: tokenizeF fuel (takeTok rest).2
    else (c :: (takeTok rest).1) :: tokenizeF fuel (takeTok rest).2

/-- Plain whitespace-delimited splitting, the spec's description of the
tokenizer ("the first (whitespace-delimited) token of the run").  Used to
compare the source tokenizer against the spec's words on quote-free runs. -/
def pyWordsF : Nat → List Char → List (List Char)
  | 0, _ => []
  | _ + 1, [] => []
  | fuel + 1, c :: rest =>
    if pySpace c then pyWordsF fuel rest
    else (c :: (takeTok rest).1) :: pyWordsF fuel (takeTok rest).2

/-- `re.sub(r'\x1b\].*?(\x07|\x1b\\)', 'n1n', text)` (wrapper). -/
def subOSC (s : List Char) : List Char := subOSCF s.length s

/-- `re.sub(r'\x1b\[[0-9;]*[HfJK]', '', text)` (wrapper). -/
def subCSIHfJK (s : List Char) : List Char := subCSIHfJKF s.length s

/-- `re.sub(r'\x1b\[\d*[A-HJ]', '', text)` (wrapper). -/
def subCursorMove (s : List Char) : List Char := subCursorMoveF s.length s

/-- `re.sub(r'\x1b\[\d+;\d+[Hf]', '', text)` (wrapper). -/
def subRowCol (s : List Char) : List Char := subRowColF s.length s

/-- `ansi_escape.split(text)` (wrapper). -/
def sgrSplit (s : List Char) : List (List Char) := sgrSplitF s.length s

/-- `re.findall(r'\"[^\"]*\"|\'[^\']*\'|\S+', chunk)` (wrapper). -/
def tokenize (s : List Char) : List (List Char) := tokenizeF s.length s

/-- Whitespace-delimited tokens (wrapper, spec-side description). -/
def pyWords (s : List Char) : List (List Char) := pyWordsF s.length s

/-- The whole substitution cascade of `write_ansi` (source lines 206–227),
innermost first: OSC → `\x08` → `\x07` → `?2004[hl]` → `[0-9;]*[HfJK]` →
`6n` → `?2004[hl]` → `\d*[A-HJ]` → `\d+;\d+[Hf]` → `6n` → `0?m` → `1Pm`. -/
def stripControls (s : List Char) : List Char :=
  sub1Pm (subReset (sub6n (subRowCol (subCursorMove (subBracketed
    (sub6n (subCSIHfJK (subBracketed (subBel (subBS (subOSC s)))))))))))

/-- The fixed foreground palette of `map_tag` (`color_map` in the source):
codes 30–37 plus the bright/gray extension 90; every other code falls to
the `'white'` default of `color_map.get(base, 'white')`. -/
def colorMap (base : List Char) : String :=
  if base = ['3', '0'] then "black"
  else if base = ['3', '1'] then "red"
  else if base = ['3', '2'] then "green"
  else if base = ['3', '3'] then "yellow"
  else if base = ['3', '4'] then "blue"
  else if base = ['3', '5'] then "magenta"
  else if base = ['3', '6'] then "cyan"
  else if base = ['3', '7'] then "white"
  else if base = ['9', '0'] then "gray"
  else "white"

/-- The nine palette codes recognized by `color_map`. -/
def palette9 : List (List Char) :=
  [['3', '0'], ['3', '1'], ['3', '2'], ['3', '3'], ['3', '4'],
   ['3', '5'], ['3', '6'], ['3', '7'], ['9', '0']]

/-- `SSHTerminal.map_tag`: split the SGR parameter string on `;`; with two
or more groups, `base = codes[1]` and the modifiers come from substring
tests `'1' in codes[0]` / `'4' in codes[0]`; with a single group the
`codes[1]` lookup raises `IndexError` and the `except` clause uses
`base = codes[0]` with no modifiers.  The result is always a non-empty
`ansi_*` tag string. -/
def mapTag (code : List Char) : String :=
  match splitSemi code with
  | c0 :: c1 :: _ =>
    let color := colorMap c1
    if c0.contains '1' then "ansi_bold_" ++ color
    else if c0.contains '4' then "ansi_ul_" ++ color
    else "ansi_" ++ color
  | [c0] => "ansi_" ++ colorMap c0
  | [] => "ansi_" ++ colorMap []

/-- One `text.insert(tk.END, text, tag)` call of `write_ansi`; `tag = ""`
is an untagged insertion. -/
structure Ins where
  text : List Char
  tag : String
deriving DecidableEq

/-- Python's `" ".join(an[1:])`: the subsequent tokens of a run are re-joined with
single spaces. -/
def joinSpace : List (List Char) → List Char
  | [] => []
  | [t] => t
  | t :: ts => t ++ ' ' :: joinSpace ts

/-- The insertions performed for one literal segment `chunk` under the
current tag `ct` (`write_ansi` step 3).  The `try` block tokenizes the
segment, rewrites the sentinel in each token, raises if the current tag is
empty (`10 / 0`) or the token list is empty (`an[0]`), and otherwise
inserts the first token (plus one space) tagged and the re-joined rest
untagged; the `except` clause inserts the sentinel-rewritten segment
verbatim and untagged. -/
def chunkInserts (ct : String) (chunk : List Char) : List Ins :=
  if chunk = [] then []
  else if ct = "" then [⟨subN1N chunk, ""⟩]
  else
    match (tokenize chunk).map subN1N with
    | [] => [⟨subN1N chunk, ""⟩]
    | t0 :: ts => [⟨t0 ++ [' '], ct⟩, ⟨joinSpace ts, ""⟩]

/-- The `while parts:` loop of `write_ansi`: pop a literal segment; if
parts remain, pop the following parameter list and update the current tag
(`if tag: current_tag = tag` — the update happens BEFORE the segment is
inserted); then insert the segment if non-empty. -/
def loopInserts : List (List Char) → String → List Ins
  | [], _ => []
  | [chunk], ct => chunkInserts ct chunk
  | chunk :: code :: rest, ct =>
    let tag := mapTag code
    let ct2 := if tag = "" then ct else tag
    chunkInserts ct2 chunk ++ loopInserts rest ct2

/-- The sequence of buffer insertions performed by one `write_ansi(text)`
call: strip/replace the control sequences, split on SGR sequences, then
run the parts loop with the local `current_tag` starting empty. -/
def writeAnsiInserts (s : List Char) : List Ins :=
  loopInserts (sgrSplit (stripControls s)) ""

/-- The literal text rendered into the buffer by one `write_ansi(text)`
call: the concatenation of all inserted texts. -/
def rendered (s : List Char) : List Char :=
  ((writeAnsiInserts s).map Ins.text).flatten

/-- A chunk containing none of the recognized control bytes: no escape
byte, no backspace, no bell.  On such chunks every recognized control form
(CSI, SGR, OSC, bracketed paste, backspace, bell) is absent. -/
def noCtrl (s : List Char) : Prop :=
  '\x1b' ∉ s ∧ '\x08' ∉ s ∧ '\x07' ∉ s

instance (s : List Char) : Decidable (noCtrl s) := by
  unfold noCtrl; infer_instance

/-! ## Worker and editor theorems -/

theorem fsRead_fsWrite (fs : List (String × String)) (p d : String) :
    fsRead (fsWrite fs p d) p = .ok d := by
  induction fs with
  | nil => simp [fsWrite, fsRead]
  | cons head rest ih =>
    obtain ⟨q, v⟩ := head
    by_cases h : q = p
    · simp [fsWrite, fsRead, h]
    · simp [fsWrite, fsRead, h, ih]

theorem workerRun_length (ms : List Msg) (s : WorkerState) :
    (workerRun ms s).1.length = ms.length := by
  induction ms generalizing s with
  | nil => rfl
  | cons m rest ih => simp [workerRun, ih]

/-! ## C1 -/

/-- C1: on a connected worker session, `write_file(path, data)` returns the
`"ok"` ack and a subsequent `read_file(path)` returns exactly `data`
(round-trip law; `dirListing`/`shellOut` are fixed for the session, which is
the "no concurrent external mutation" assumption, and UTF-8 encode/decode of
text data cancels in the paramiko layer). -/
theorem write_then_read (s : WorkerState) (path data : String)
    (hc : s.connected = true) :
    (workerStep (.write_file path data) s).1 = some .ack ∧
      (workerStep (.read_file path) (workerStep (.write_file path data) s).2).1
        = some (.content data) := by
  constructor
  · simp [workerStep, execCmd, hc]
  · simp [workerStep, execCmd, hc, fsRead_fsWrite]

/-- C1 witness: the round-trip law at a concrete state, path and data. -/
theorem write_then_read_witness :
    (workerStep (.write_file "dir/file.txt" "hello") sampleConnected).1 = some .ack ∧
      (workerStep (.read_file "dir/file.txt")
          (workerStep (.write_file "dir/file.txt" "hello") sampleConnected).2).1
        = some (.content "hello") :=
  write_then_read sampleConnected "dir/file.txt" "hello" rfl

/-! ## C2 -/

/-- C2 (amended): a successful `listdir(path)` response is the ordered
icon/name list with a parent-navigation entry `("📁", "..")` prepended
exactly when `path` is outside the root-indicator tuple `(".", "/", "")`.
In particular `listdir(".")` does NOT receive a parent entry — the code
treats `"."` as a root indicator — while any path outside the tuple does. -/
theorem listdir_parent_entry (s : WorkerState) (path : String)
    (entries : List DirEntry) (hc : s.connected = true)
    (hd : s.dirListing path = .ok entries) :
    (workerStep (.listdir path) s).1
        = some (.listing (listdirItems path entries)) ∧
      (path ∉ rootPaths →
        listdirItems path entries = ("📁", "..") :: entries.map entryIcon) ∧
      (path ∈ rootPaths →
        listdirItems path entries = entries.map entryIcon) := by
  refine ⟨?_, ?_, ?_⟩
  · simp [workerStep, execCmd, hc, hd]
  · intro h; simp [listdirItems, h]
  · intro h; simp [listdirItems, h]

/-- C2 witness: at a concrete connected state, `listdir "sub"` carries the
parent entry first and `listdir "/"` does not. -/
theorem listdir_parent_entry_witness :
    (workerStep (.listdir "sub") sampleConnected).1
        = some (.listing [("📁", ".."), ("📄", "a.txt")]) ∧
      (workerStep (.listdir "/") sampleConnected).1
        = some (.listing [("📄", "a.txt")]) := by
  constructor
  · exact ((listdir_parent_entry sampleConnected "sub" [⟨"a.txt", false⟩] rfl rfl).1.trans
      (by simp [(listdir_parent_entry sampleConnected "sub" [⟨"a.txt", false⟩] rfl rfl).2.1
        (by decide), entryIcon]))
  · exact ((listdir_parent_entry sampleConnected "/" [⟨"a.txt", false⟩] rfl rfl).1.trans
      (by simp [(listdir_parent_entry sampleConnected "/" [⟨"a.txt", false⟩] rfl rfl).2.2
        (by decide), entryIcon]))

/-- C2 counterexample: the claim as stated says `listdir(".")` (the
client's non-root starting path) includes the parent-navigation entry as
its first element; on the code, `"."` is in the suppression tuple, so the
response for `"."` at a concrete connected state is just the mapped
listing, whose first element is `("📄", "a.txt")`, not `("📁", "..")`. -/
theorem listdir_dot_counterexample :
    (workerStep (.listdir ".") sampleConnected).1
        = some (.listing [("📄", "a.txt")]) ∧
      [("📄", "a.txt")].head? ≠ some ("📁", "..") := by
  exact ⟨rfl, by decide⟩

/-! ## C3 -/

/-- C3: whenever executing a received command raises a worker-side
exception (`execCmd` yields `Except.error e`), the worker answers on that
same connection with the error-carrying response `{"error": e}` and keeps
its state; moreover the loop never dies — every message of any run is
handled (one response slot per received message). -/
theorem worker_error_reply (m : Msg) (s : WorkerState) (e : String)
    (h : execCmd m s = .error e) :
    workerStep m s = (some (.err e), s) ∧
      ∀ ms : List Msg, (workerRun (m :: ms) s).1.length = ms.length + 1 := by
  constructor
  · simp [workerStep, h]
  · intro ms
    simp [workerRun, workerRun_length]

/-- C3 witness: `read_file` before `connect` raises (`sftp` is `None`), and
the worker replies with the error response and stays alive for the next
messages. -/
theorem worker_error_reply_witness :
    workerStep (.read_file "f") sampleIdle
        = (some (.err "AttributeError: NoneType object has no attribute open"),
            sampleIdle) ∧
      ∀ ms : List Msg, (workerRun (.read_file "f" :: ms) sampleIdle).1.length
        = ms.length + 1 :=
  worker_error_reply (.read_file "f") sampleIdle
    "AttributeError: NoneType object has no attribute open" rfl

/-! ## C10 -/

/-- C10: `set_text t` followed by `get_text` returns `t` with one extra
trailing newline (the Tk text widget's automatic terminal newline); the
appended newline makes the result differ from `t`; and through the
application-level open-then-save cycle (`read_file` → `set_text` →
`get_text` → `write_file` in `main.py`) a stored file gains exactly one
trailing newline per cycle. -/
theorem set_get_trailing_newline (w : TextWidget) (s : WorkerState)
    (path data : String) (hc : s.connected = true)
    (hr : fsRead s.files path = .ok data) :
    CodeEditor.get_text (CodeEditor.set_text w data) = data ++ "\n" ∧
      data ++ "\n" ≠ data ∧
      fsRead ((workerStep
          (.write_file path (CodeEditor.get_text (CodeEditor.set_text w data))) s).2).files
          path
        = .ok (data ++ "\n") := by
  refine ⟨rfl, ?_, ?_⟩
  · intro h
    have := congrArg String.length h
    simp at this
    exact absurd this (by decide)
  · simp [workerStep, execCmd, hc, CodeEditor.get_text, CodeEditor.set_text,
      fsRead_fsWrite]

/-- C10 witness: one open-then-save cycle on the concrete state stores
`"x\n"` for the file that contained `"x"`. -/
theorem set_get_trailing_newline_witness :
    CodeEditor.get_text (CodeEditor.set_text ⟨""⟩ "x") = "x" ++ "\n" ∧
      "x" ++ "\n" ≠ "x" ∧
      fsRead ((workerStep
          (.write_file "f" (CodeEditor.get_text (CodeEditor.set_text ⟨""⟩ "x")))
          sampleConnected).2).files "f"
        = .ok ("x" ++ "\n") :=
  set_get_trailing_newline ⟨""⟩ sampleConnected "f" "x" rfl rfl

/-! ## Terminal lemmas -/

theorem notMemCons {α : Type} {x c : α} {rest : List α} (h : x ∉ c :: rest) :
    c ≠ x ∧ x ∉ rest :=
  ⟨fun e => h (List.mem_cons.mpr (Or.inl e.symm)),
   fun m => h (List.mem_cons.mpr (Or.inr m))⟩

theorem subBS_id (s : List Char) (h : '\x08' ∉ s) : subBS s = s := by
  induction s with
  | nil => rfl
  | cons c rest ih =>
    obtain ⟨hc, hr⟩ := notMemCons h
    simp only [subBS]
    rw [if_neg hc, ih hr]

theorem subBel_id (s : List Char) (h : '\x07' ∉ s) : subBel s = s := by
  induction s with
  | nil => rfl
  | cons c rest ih =>
    obtain ⟨hc, hr⟩ := notMemCons h
    simp only [subBel]
    rw [if_neg hc, ih hr]

set_option maxHeartbeats 1600000 in
theorem subBracketed_cons_ne (c : Char) (rest : List Char) (h : c ≠ '\x1b') :
    subBracketed (c :: rest) = c :: subBracketed rest := by
  rw [subBracketed.eq_def]
  split <;> simp_all

theorem subBracketed_id (s : List Char) (h : '\x1b' ∉ s) : subBracketed s = s := by
  induction s with
  | nil => rfl
  | cons c rest ih =>
    obtain ⟨hc, hr⟩ := notMemCons h
    rw [subBracketed_cons_ne c rest hc, ih hr]

theorem sub6n_cons_ne (c : Char) (rest : List Char) (h : c ≠ '\x1b') :
    sub6n (c :: rest) = c :: sub6n rest := by
  rw [sub6n.eq_def]
  split <;> simp_all

theorem sub6n_id (s : List Char) (h : '\x1b' ∉ s) : sub6n s = s := by
  induction s with
  | nil => rfl
  | cons c rest ih =>
    obtain ⟨hc, hr⟩ := notMemCons h
    rw [sub6n_cons_ne c rest hc, ih hr]

theorem subReset_cons_ne (c : Char) (rest : List Char) (h : c ≠ '\x1b') :
    subReset (c :: rest) = c :: subReset rest := by
  rw [subReset.eq_def]
  split <;> simp_all

theorem subReset_id (s : List Char) (h : '\x1b' ∉ s) : subReset s = s := by
  induction s with
  | nil => rfl
  | cons c rest ih =>
    obtain ⟨hc, hr⟩ := notMemCons h
    rw [subReset_cons_ne c rest hc, ih hr]

theorem sub1Pm_cons_ne (c : Char) (rest : List Char) (h : c ≠ '\x1b') :
    sub1Pm (c :: rest) = c :: sub1Pm rest := by
  rw [sub1Pm.eq_def]
  split <;> simp_all

theorem sub1Pm_id (s : List Char) (h : '\x1b' ∉ s) : sub1Pm s = s := by
  induction s with
  | nil => rfl
  | cons c rest ih =>
    obtain ⟨hc, hr⟩ := notMemCons h
    rw [sub1Pm_cons_ne c rest hc, ih hr]

theorem subN1N_cons_ne (c : Char) (rest : List Char) (h : c ≠ 'n') :
    subN1N (c :: rest) = c :: subN1N rest := by
  rw [subN1N.eq_def]
  split <;> simp_all

theorem subN1N_append (a b : List Char) (h : 'n' ∉ a) :
    subN1N (a ++ 'n' :: '1' :: 'n' :: b) = a ++ '\n' :: subN1N b := by
  induction a with
  | nil => rfl
  | cons c a2 ih =>
    obtain ⟨hc, ha⟩ := notMemCons h
    rw [List.cons_append, subN1N_cons_ne c _ hc, ih ha, List.cons_append]

theorem subOSCF_id : ∀ (n : Nat) (s : List Char), '\x1b' ∉ s → subOSCF n s = s := by
  intro n
  induction n with
  | zero => intro s _; rfl
  | succ n ih =>
    intro s h
    cases s with
    | nil => rfl
    | cons c rest =>
      obtain ⟨hc, hr⟩ := notMemCons h
      simp only [subOSCF]
      rw [if_neg hc, ih rest hr]

theorem subCSIHfJKF_id : ∀ (n : Nat) (s : List Char), '\x1b' ∉ s →
    subCSIHfJKF n s = s := by
  intro n
  induction n with
  | zero => intro s _; rfl
  | succ n ih =>
    intro s h
    cases s with
    | nil => rfl
    | cons c rest =>
      obtain ⟨hc, hr⟩ := notMemCons h
      simp only [subCSIHfJKF]
      rw [if_neg hc, ih rest hr]

theorem subCursorMoveF_id : ∀ (n : Nat) (s : List Char), '\x1b' ∉ s →
    subCursorMoveF n s = s := by
  intro n
  induction n with
  | zero => intro s _; rfl
  | succ n ih =>
    intro s h
    cases s with
    | nil => rfl
    | cons c rest =>
      obtain ⟨hc, hr⟩ := notMemCons h
      simp only [subCursorMoveF]
      rw [if_neg hc, ih rest hr]

theorem subRowColF_id : ∀ (n : Nat) (s : List Char), '\x1b' ∉ s →
    subRowColF n s = s := by
  intro n
  induction n with
  | zero => intro s _; rfl
  | succ n ih =>
    intro s h
    cases s with
    | nil => rfl
    | cons c rest =>
      obtain ⟨hc, hr⟩ := notMemCons h
      simp only [subRowColF]
      rw [if_neg hc, ih rest hr]

theorem sgrSplitF_single : ∀ (n : Nat) (s : List Char), '\x1b' ∉ s →
    sgrSplitF n s = [s] := by
  intro n
  induction n with
  | zero => intro s _; rfl
  | succ n ih =>
    intro s h
    cases s with
    | nil => rfl
    | cons c rest =>
      obtain ⟨hc, hr⟩ := notMemCons h
      simp only [sgrSplitF]
      rw [if_neg hc, ih rest hr]
      rfl

theorem subOSC_id (s : List Char) (h : '\x1b' ∉ s) : subOSC s = s :=
  subOSCF_id s.length s h

theorem subCSIHfJK_id (s : List Char) (h : '\x1b' ∉ s) : subCSIHfJK s = s :=
  subCSIHfJKF_id s.length s h

theorem subCursorMove_id (s : List Char) (h : '\x1b' ∉ s) : subCursorMove s = s :=
  subCursorMoveF_id s.length s h

theorem subRowCol_id (s : List Char) (h : '\x1b' ∉ s) : subRowCol s = s :=
  subRowColF_id s.length s h

theorem sgrSplit_single (s : List Char) (h : '\x1b' ∉ s) : sgrSplit s = [s] :=
  sgrSplitF_single s.length s h

theorem stripControls_id (s : List Char) (h : noCtrl s) : stripControls s = s := by
  obtain ⟨h1, h2, h3⟩ := h
  unfold stripControls
  rw [subOSC_id s h1, subBS_id s h2, subBel_id s h3, subBracketed_id s h1,
    subCSIHfJK_id s h1, sub6n_id s h1, subBracketed_id s h1, subCursorMove_id s h1,
    subRowCol_id s h1, sub6n_id s h1, subReset_id s h1, sub1Pm_id s h1]

theorem writeAnsiInserts_noCtrl (s : List Char) (h : noCtrl s) :
    writeAnsiInserts s = chunkInserts "" s := by
  unfold writeAnsiInserts
  rw [stripControls_id s h, sgrSplit_single s h.1]
  rfl

theorem rendered_noCtrl (s : List Char) (h : noCtrl s) : rendered s = subN1N s := by
  unfold rendered
  rw [writeAnsiInserts_noCtrl s h]
  unfold chunkInserts
  by_cases hs : s = []
  · subst hs; rfl
  · rw [if_neg hs, if_pos rfl]
    simp

theorem takeTok_append (l : List Char) : (takeTok l).1 ++ (takeTok l).2 = l := by
  induction l with
  | nil => rfl
  | cons c rest ih =>
    cases h : pySpace c with
    | true => simp [takeTok, h]
    | false => simp [takeTok, h, ih]

theorem mem_takeTok_snd {x : Char} {l : List Char} (h : x ∈ (takeTok l).2) :
    x ∈ l :=
  takeTok_append l ▸ List.mem_append.mpr (Or.inr h)

theorem tokenizeF_eq_pyWordsF : ∀ (n : Nat) (l : List Char), '"' ∉ l → '\'' ∉ l →
    tokenizeF n l = pyWordsF n l := by
  intro n
  induction n with
  | zero => intro l _ _; rfl
  | succ n ih =>
    intro l h1 h2
    cases l with
    | nil => rfl
    | cons c rest =>
      obtain ⟨hc1, hr1⟩ := notMemCons h1
      obtain ⟨hc2, hr2⟩ := notMemCons h2
      cases hsp : pySpace c with
      | true =>
        simp only [tokenizeF, pyWordsF, hsp]
        exact ih rest hr1 hr2
      | false =>
        simp only [tokenizeF, pyWordsF, hsp, Bool.false_eq_true, if_false,
          if_neg hc1, if_neg hc2]
        rw [ih (takeTok rest).2 (fun m => hr1 (mem_takeTok_snd m))
          (fun m => hr2 (mem_takeTok_snd m))]

theorem splitSemi_no_semi (code : List Char) (h : ';' ∉ code) :
    splitSemi code = [code] := by
  induction code with
  | nil => rfl
  | cons c rest ih =>
    obtain ⟨hc, hr⟩ := notMemCons h
    simp only [splitSemi]
    rw [if_neg hc, ih hr]
    rfl

theorem mapTag_unknown (code : List Char) (h1 : ';' ∉ code)
    (h2 : code ∉ palette9) : mapTag code = "ansi_white" := by
  unfold mapTag
  rw [splitSemi_no_semi code h1]
  show "ansi_" ++ colorMap code = "ansi_white"
  simp only [palette9, List.mem_cons, List.not_mem_nil, or_false, not_or] at h2
  obtain ⟨e0, e1, e2, e3, e4, e5, e6, e7, e8⟩ := h2
  unfold colorMap
  rw [if_neg e0, if_neg e1, if_neg e2, if_neg e3, if_neg e4, if_neg e5, if_neg e6,
    if_neg e7, if_neg e8]
  decide

theorem ne_empty_of_append (p q : String) (hp : p.length ≠ 0) : p ++ q ≠ "" := by
  intro h
  have hl := congrArg String.length h
  rw [String.length_append] at hl
  simp at hl
  omega

theorem mapTag_ne_empty (code : List Char) : mapTag code ≠ "" := by
  unfold mapTag
  rcases hs : splitSemi code with _ | ⟨c0, _ | ⟨c1, tl2⟩⟩
  · exact ne_empty_of_append _ _ (by decide)
  · exact ne_empty_of_append _ _ (by decide)
  · show (if c0.contains '1' then "ansi_bold_" ++ colorMap c1
      else if c0.contains '4' then "ansi_ul_" ++ colorMap c1
      else "ansi_" ++ colorMap c1) ≠ ""
    split_ifs <;> exact ne_empty_of_append _ _ (by decide)

/-! ## C4 -/

/-- C4 (amended): for a chunk containing none of the recognized control
bytes, the decoder never throws (the embedding is a total function and the
step-3 `try`/`except` is modelled by the fallback branch of
`chunkInserts`), and the literal text rendered into the buffer equals the
input with every occurrence of the three-character substring `n1n`
rewritten to a newline — NOT the input unchanged, because the OSC sentinel
rewrite `re.sub(r'n1n', '\n', ...)` applies to all literal text. -/
theorem ctrlfree_render (s : List Char) (h : noCtrl s) :
    rendered s = subN1N s :=
  rendered_noCtrl s h

/-- C4 witness: a concrete control-free chunk containing the sentinel
renders with the sentinel rewritten and everything else unchanged. -/
theorem ctrlfree_render_witness :
    noCtrl "an1nb".toList ∧ rendered "an1nb".toList = "a\nb".toList := by
  refine ⟨by decide, ?_⟩
  rw [ctrlfree_render "an1nb".toList (by decide)]
  decide

/-- C4 counterexample: the chunk `"n1n"` contains none of the recognized
control forms, yet the literal text rendered for it is `"\n"`, not the
chunk unchanged — refuting the claim as stated. -/
theorem ctrlfree_render_counterexample :
    noCtrl "n1n".toList ∧ rendered "n1n".toList = ['\n'] ∧
      rendered "n1n".toList ≠ "n1n".toList := by
  refine ⟨by decide, by decide, by decide⟩

/-! ## C5 -/

/-- C5 (amended): `map_tag` maps the single color codes 30–37 and the
extension 90 to their documented palette entries, code 0 and every other
single code to the default `"ansi_white"` entry.  However, in `write_ansi`
the substitution `re.sub(r'\x1b\[0?m', '', text)` removes `ESC[0m` BEFORE
the SGR split, so in the single-chunk stream `SGR 31, "x", SGR 0, "y"` the
reset is stripped and both letters are inserted in one run tagged red
(`"xy "` with tag `"ansi_red"`), rather than `"y"` rendering with the
default tag. -/
theorem sgr_palette_and_reset :
    (mapTag "30".toList = "ansi_black" ∧ mapTag "31".toList = "ansi_red" ∧
      mapTag "32".toList = "ansi_green" ∧ mapTag "33".toList = "ansi_yellow" ∧
      mapTag "34".toList = "ansi_blue" ∧ mapTag "35".toList = "ansi_magenta" ∧
      mapTag "36".toList = "ansi_cyan" ∧ mapTag "37".toList = "ansi_white" ∧
      mapTag "90".toList = "ansi_gray" ∧ mapTag "0".toList = "ansi_white") ∧
    (∀ code : List Char, ';' ∉ code → code ∉ palette9 →
      mapTag code = "ansi_white") ∧
    writeAnsiInserts "\x1b[31mx\x1b[0my".toList
        = [⟨"xy ".toList, "ansi_red"⟩, ⟨[], ""⟩] := by
  refine ⟨by decide, mapTag_unknown, by decide⟩

/-- C5 witness: the unknown-code clause of the palette mapping applied at
the concrete code `99`. -/
theorem sgr_palette_and_reset_witness :
    ';' ∉ "99".toList ∧ "99".toList ∉ palette9 ∧
      mapTag "99".toList = "ansi_white" :=
  ⟨by decide, by decide,
    sgr_palette_and_reset.2.1 "99".toList (by decide) (by decide)⟩

/-- C5 counterexample: feeding the single chunk
`ESC[31m x ESC[0m y` to `write_ansi` inserts `"xy "` tagged `"ansi_red"`
(the reset was stripped before SGR parsing), so `"y"` is tagged red, not
the default — refuting the claim's concrete scenario as stated. -/
theorem sgr_reset_counterexample :
    writeAnsiInserts "\x1b[31mx\x1b[0my".toList
        = [⟨"xy ".toList, "ansi_red"⟩, ⟨[], ""⟩] ∧
      ("ansi_red" : String) ≠ "ansi_white" ∧ ("ansi_red" : String) ≠ "" := by
  refine ⟨by decide, by decide, by decide⟩

/-! ## C6 -/

/-- C6 (amended): applying an SGR parameter list whose code is unknown
never raises — `map_tag` is total and always yields a non-empty `ansi_*`
tag — but the resulting tag is the default `"ansi_white"` entry
(`color_map.get(base, 'white')`), and since the tag is never falsy the
`if tag:` guard in `write_ansi` always overwrites the current tag: an
unknown code RESETS the style to default white rather than leaving it
unchanged. -/
theorem unknown_sgr_default (code : List Char) (h1 : ';' ∉ code)
    (h2 : code ∉ palette9) :
    mapTag code = "ansi_white" ∧ ∀ c : List Char, mapTag c ≠ "" :=
  ⟨mapTag_unknown code h1 h2, mapTag_ne_empty⟩

/-- C6 witness: the unknown code `99` maps to the default white tag and
tags are never empty. -/
theorem unknown_sgr_default_witness :
    ';' ∉ "99".toList ∧ "99".toList ∉ palette9 ∧
      mapTag "99".toList = "ansi_white" ∧ mapTag "0".toList ≠ "" :=
  ⟨by decide, by decide,
    (unknown_sgr_default "99".toList (by decide) (by decide)).1,
    (unknown_sgr_default "99".toList (by decide) (by decide)).2 "0".toList⟩

/-- C6 counterexample: in the stream `SGR 31, "a", SGR 99, "b"` the
unknown code 99 does not leave the current tag red: every subsequent
insertion (including the literal run preceding it in the same chunk, since
`write_ansi` pops the next code before inserting the pending chunk) is
tagged `"ansi_white"` — refuting "unknown codes leave the current style
tag unchanged". -/
theorem unknown_sgr_counterexample :
    (writeAnsiInserts "\x1b[31ma\x1b[99mb".toList).map Ins.tag
        = ["ansi_white", "", "ansi_white", ""] ∧
      ("ansi_white" : String) ≠ "ansi_red" := by
  refine ⟨by decide, by decide⟩

/-! ## C7 -/

/-- C7: a non-retraction literal run inserted under a non-empty current
style tag is rendered as: first token (plus a trailing space) tagged with
the current tag, all remaining tokens re-joined with single spaces and
inserted untagged.  The tokens are those of the source tokenizer
`re.findall(r'\"[^\"]*\"|\'[^\']*\'|\S+', chunk)`, which on quote-free
runs coincides with plain whitespace-delimited splitting (second
conjunct), matching the claim's "whitespace-delimited token" reading. -/
theorem first_token_tagged :
    (∀ (ct : String) (chunk t0 : List Char) (ts : List (List Char)),
      ct ≠ "" → tokenize chunk = t0 :: ts →
      chunkInserts ct chunk
        = [⟨subN1N t0 ++ [' '], ct⟩, ⟨joinSpace (ts.map subN1N), ""⟩]) ∧
    (∀ chunk : List Char, '"' ∉ chunk → '\'' ∉ chunk →
      tokenize chunk = pyWords chunk) := by
  constructor
  · intro ct chunk t0 ts hct htok
    have hch : chunk ≠ [] := by
      intro e
      subst e
      simp [tokenize, tokenizeF] at htok
    unfold chunkInserts
    rw [if_neg hch, if_neg hct, htok, List.map_cons]
  · intro chunk h1 h2
    exact tokenizeF_eq_pyWordsF chunk.length chunk h1 h2

/-- C7 witness: the run `"ab cd"` under tag `"ansi_red"` inserts `"ab "`
tagged red and `"cd"` untagged; its tokens are the whitespace-delimited
ones. -/
theorem first_token_tagged_witness :
    chunkInserts "ansi_red" "ab cd".toList
        = [⟨"ab ".toList, "ansi_red"⟩, ⟨"cd".toList, ""⟩] ∧
      tokenize "ab cd".toList = pyWords "ab cd".toList := by
  constructor
  · rw [first_token_tagged.1 "ansi_red" "ab cd".toList "ab".toList ["cd".toList]
      (by decide) (by decide)]
    decide
  · exact first_token_tagged.2 "ab cd".toList (by decide) (by decide)

/-! ## C8 -/

/-- C8 (amended): when the step-3 `try` block raises — exactly when the
current tag is empty (the deliberate `10 / 0`) or the token list is empty
(`an[0]` on no tokens) — the `except` clause inserts the
control-sequence-stripped chunk with only the sentinel `n1n` rewritten to
a newline, so the run is never dropped.  Byte-for-byte preservation holds
ONLY on this fallback path: the successful tokenized path re-joins tokens
with single spaces and so loses whitespace bytes (see the
counterexample). -/
theorem fallback_keeps_chunk (ct : String) (chunk : List Char)
    (hne : chunk ≠ []) (h : ct = "" ∨ tokenize chunk = []) :
    chunkInserts ct chunk = [⟨subN1N chunk, ""⟩] := by
  unfold chunkInserts
  rw [if_neg hne]
  rcases h with h | h
  · rw [if_pos h]
  · by_cases hct : ct = ""
    · rw [if_pos hct]
    · rw [if_neg hct, h, List.map_nil]

/-- C8 witness: an all-whitespace run has no tokens, so even under a
non-empty tag the fallback inserts it verbatim (untagged). -/
theorem fallback_keeps_chunk_witness :
    (" ".toList ≠ ([] : List Char)) ∧ tokenize " ".toList = [] ∧
      chunkInserts "ansi_red" " ".toList = [⟨" ".toList, ""⟩] := by
  refine ⟨by decide, by decide, ?_⟩
  rw [fallback_keeps_chunk "ansi_red" " ".toList (by decide) (Or.inr (by decide))]
  decide

/-- C8 counterexample: on the successful tokenized path bytes ARE lost:
the chunk `ESC[31m a␣␣b` (two spaces) renders as `"a b"` — the double
space collapses to one — so the claim's "in all cases no byte of the
chunk's literal (control-sequence-stripped) content is lost" is false. -/
theorem whitespace_lost_counterexample :
    rendered "\x1b[31ma  b".toList = "a b".toList ∧
      "a b".toList ≠ "a  b".toList := by
  refine ⟨by decide, by decide⟩

/-! ## C9 -/

/-- C9: every occurrence of the literal substring `n1n` in a chunk is
rendered as a newline even when the chunk contains no OSC sequence at all
(here: no control bytes whatsoever): the OSC substitution installs the
sentinel `n1n`, and the later `re.sub(r'n1n', '\n', ...)` rewrites ALL
occurrences, including ones already present in the input text. -/
theorem n1n_sentinel_newline (a b : List Char) (ha : noCtrl a) (hb : noCtrl b)
    (hn : 'n' ∉ a) :
    rendered (a ++ 'n' :: '1' :: 'n' :: b) = a ++ '\n' :: subN1N b := by
  have hmem : ∀ x : Char, x ∉ a → x ∉ b → x ≠ 'n' → x ≠ '1' →
      x ∉ a ++ 'n' :: '1' :: 'n' :: b := by
    intro x hxa hxb h1 h2 hx
    rcases List.mem_append.mp hx with h | h
    · exact hxa h
    · rcases List.mem_cons.mp h with h | h
      · exact h1 h
      rcases List.mem_cons.mp h with h | h
      · exact h2 h
      rcases List.mem_cons.mp h with h | h
      · exact h1 h
      · exact hxb h
  obtain ⟨a1, a2, a3⟩ := ha
  obtain ⟨b1, b2, b3⟩ := hb
  have hcat : noCtrl (a ++ 'n' :: '1' :: 'n' :: b) :=
    ⟨hmem _ a1 b1 (by decide) (by decide), hmem _ a2 b2 (by decide) (by decide),
      hmem _ a3 b3 (by decide) (by decide)⟩
  rw [rendered_noCtrl _ hcat, subN1N_append a b hn]

/-- C9 witness: the concrete chunk `"ab" ++ "n1n" ++ "cd"` (no OSC, no
escapes) renders as `"ab\ncd"`. -/
theorem n1n_sentinel_newline_witness :
    rendered ("ab".toList ++ 'n' :: '1' :: 'n' :: "cd".toList)
        = "ab\ncd".toList := by
  rw [n1n_sentinel_newline "ab".toList "cd".toList (by decide) (by decide)
    (by decide)]
  decide
